import Mathlib

/-!
Verification of the offer book and liabilities accounting subsystem of
fonero-core, as described in its specification, against a shallow
embedding of the sources (src/ledger/OfferFrame.h, src/test/TxTests.cpp,
src/transactions/SetOptionsOpFrame.h).

The liability-ledger, price and best-offer implementations are declared in
OfferFrame.h but their definitions are not part of the excerpt; where a
claim depends on them the definitions below are modelled from the spec and
say so in their doc comment.  Test-helper code from TxTests.cpp
(transactionFromOperations, getAccount, the SetOptionsArguments merge
operator) is embedded directly.
-/

deriving instance DecidableEq for Except

namespace Fonero

/-- Largest value of a signed 64-bit integer (`INT64_MAX`). -/
def INT64_MAX : Int := 9223372036854775807

/-- Largest value of an unsigned 32-bit integer (`UINT32_MAX`). -/
def UINT32_MAX : Nat := 4294967295

/-! ## SetOptionsArguments and its merge operator (TxTests.cpp 737-751) -/

/-- A signer: key plus weight (txtest `makeSigner`). -/
structure Signer where
  key : Nat
  weight : Int
deriving DecidableEq

/-- Account identifier (public key), abstracted to a number. -/
abbrev AccountID := Nat

/-- Arguments of a set-options operation; every field is optional, mirroring
the C++ `SetOptionsArguments` whose members are all `optional<...>`. -/
@[ext]
structure SetOptionsArguments where
  masterWeight : Option Int
  lowThreshold : Option Int
  medThreshold : Option Int
  highThreshold : Option Int
  signer : Option Signer
  setFlags : Option Nat
  clearFlags : Option Nat
  inflationDest : Option AccountID
  homeDomain : Option String
deriving DecidableEq

/-- The default-constructed `SetOptionsArguments{}`: every optional member
is disengaged. -/
def emptySetOptionsArguments : SetOptionsArguments :=
  ⟨none, none, none, none, none, none, none, none, none⟩

/-- One field of the merge: `y.field ? y.field : x.field` from
`operator|` in TxTests.cpp (the C++ truth test on an `optional` is
`has_value`, i.e. `isSome`). -/
def chooseOpt {α : Type} (x y : Option α) : Option α :=
  if y.isSome then y else x

/-- `operator|(SetOptionsArguments const&, SetOptionsArguments const&)`
from TxTests.cpp lines 737-751: each field of the result is `y`'s field
when engaged, else `x`'s field. -/
def mergeSetOptionsArguments (x y : SetOptionsArguments) : SetOptionsArguments :=
  { masterWeight := chooseOpt x.masterWeight y.masterWeight
    lowThreshold := chooseOpt x.lowThreshold y.lowThreshold
    medThreshold := chooseOpt x.medThreshold y.medThreshold
    highThreshold := chooseOpt x.highThreshold y.highThreshold
    signer := chooseOpt x.signer y.signer
    setFlags := chooseOpt x.setFlags y.setFlags
    clearFlags := chooseOpt x.clearFlags y.clearFlags
    inflationDest := chooseOpt x.inflationDest y.inflationDest
    homeDomain := chooseOpt x.homeDomain y.homeDomain }

/-! ## transactionFromOperations (TxTests.cpp 429-444) -/

/-- An operation, as built by the txtest helpers; only its presence in the
operation list matters for the fee computation. -/
inductive Operation where
  | payment (dest : AccountID) (amount : Int)
  | manageOffer (offerId : Nat)
  | other
deriving DecidableEq

/-- A transaction envelope's mutable fields filled in by
`transactionFromOperations`. -/
structure TransactionEnvelope where
  sourceAccount : AccountID
  fee : Nat
  seqNum : Nat
  operations : List Operation
deriving DecidableEq

/-- `transactionFromOperations` (TxTests.cpp 429-444): the fee is
`static_cast<uint32_t>((ops.size() * app.getLedgerManager().getTxFee()) & UINT32_MAX)`.
The product is computed in `size_t` (64-bit, wrapping) arithmetic and then
masked with `UINT32_MAX`. -/
def transactionFromOperations (source : AccountID) (seq : Nat)
    (ops : List Operation) (txFee : Nat) : TransactionEnvelope :=
  { sourceAccount := source
    fee := ((ops.length * txFee) % 2 ^ 64) &&& UINT32_MAX
    seqNum := seq
    operations := ops }

/-! ## getAccount (TxTests.cpp 362-370) -/

/-- A secret key derived deterministically from a 32-byte seed.
Modelled from the spec: `SecretKey::fromSeed` lives in the crypto
collaborator, outside the excerpt; all that the claims use is that it is a
deterministic function of the seed. -/
structure SecretKey where
  seed : String
deriving DecidableEq

/-- `SecretKey::fromSeed`, as a deterministic function of the seed.
Modelled from the spec: the crypto implementation is outside the excerpt. -/
def SecretKey.fromSeed (s : String) : SecretKey := ⟨s⟩

/-- The seed-stretching loop of `getAccount` (TxTests.cpp 365-368):
`while (seed.size() < 32) seed += '.';`. -/
def stretchSeed (s : String) : String :=
  if h : s.length < 32 then stretchSeed (s ++ ".") else s
termination_by 32 - s.length
decreasing_by
  have hd : (".").length = 1 := rfl
  simp only [String.length_append, hd]
  omega

/-- `getAccount` (TxTests.cpp 362-370): stretch the name to a 32-byte seed
by appending dots, then derive the secret key from the seed. -/
def getAccount (n : String) : SecretKey :=
  SecretKey.fromSeed (stretchSeed n)

/-! ## Data model: prices, assets, offer entries (spec section 3; only the
declarations in OfferFrame.h are in the excerpt) -/

/-- A rational price: numerator and denominator (spec: both positive i32;
positivity is carried as a hypothesis where needed). -/
structure Price where
  n : Int
  d : Int
deriving DecidableEq

/-- An asset descriptor: native or issued, as a tagged variant with two
cases (spec section 9). -/
inductive Asset where
  | native
  | alphaNum4 (assetCode : String) (issuer : AccountID)
deriving DecidableEq

/-- An offer entry: the persisted record (spec section 3 and the
`OfferEntry` fields used throughout OfferFrame.h). -/
structure OfferEntry where
  sellerID : AccountID
  offerID : Nat
  selling : Asset
  buying : Asset
  amount : Int
  price : Price
  flags : Nat
deriving DecidableEq

/-- Error taxonomy of the liability ledger (spec section 7). -/
inductive LiabilityError where
  | ArithmeticOverflow
  | InsufficientBalance
  | InternalInconsistency
deriving DecidableEq

/-- Modelled from the spec: `getSellingLiabilities(OfferEntry const&)` is
declared in OfferFrame.h line 23 but not defined in the excerpt.  The spec:
selling liability is exact, the offer's remaining amount (no rounding). -/
def getSellingLiabilities (oe : OfferEntry) : Int := oe.amount

/-- Modelled from the spec: `getBuyingLiabilities(OfferEntry const&)` is
declared in OfferFrame.h line 24 but not defined in the excerpt.  The spec:
the buying liability is `ceil(amount * price)`, computed with widened
arithmetic, and a result past the representable signed 64-bit range signals
`ArithmeticOverflow` rather than wrapping or truncating. -/
def getBuyingLiabilities (oe : OfferEntry) : Except LiabilityError Int :=
  let v := Int.ediv (oe.amount * oe.price.n + oe.price.d - 1) oe.price.d
  if INT64_MAX < v then .error .ArithmeticOverflow else .ok v

/-! ## Liability ledger (spec section 4.2; `acquireLiabilities` /
`releaseLiabilities` are declared in OfferFrame.h lines 114-123 but not
defined in the excerpt) -/

/-- A balance record (account native balance or trust line): balance,
reserve, representable/trust limit, and the two liability totals. -/
structure BalanceRecord where
  balance : Int
  reserve : Int
  limit : Int
  sellingLiabilities : Int
  buyingLiabilities : Int
deriving DecidableEq

/-- Which liability total an acquire/release call targets. -/
inductive Side where
  | selling
  | buying
deriving DecidableEq

/-- Modelled from the spec: `acquire(account, asset, side, delta)`
(spec section 4.2); the implementation behind
`OfferFrame::acquireLiabilities` is not in the excerpt.  Attempts to
increase the relevant liability total by `delta`; fails with
`InsufficientBalance` when the post-acquisition invariant
(`balance - sellingLiabilities >= reserve` on the selling side,
`balance + buyingLiabilities <= limit` on the buying side) would be
violated; all-or-nothing. -/
def acquire (r : BalanceRecord) (side : Side) (delta : Int) :
    Except LiabilityError BalanceRecord :=
  match side with
  | .selling =>
    let s := r.sellingLiabilities + delta
    if r.reserve ≤ r.balance - s then
      .ok { r with sellingLiabilities := s }
    else
      .error .InsufficientBalance
  | .buying =>
    let b := r.buyingLiabilities + delta
    if r.balance + b ≤ r.limit then
      .ok { r with buyingLiabilities := b }
    else
      .error .InsufficientBalance

/-- Modelled from the spec: `release(account, asset, side, delta)`
(spec section 4.2); the implementation behind
`OfferFrame::releaseLiabilities` is not in the excerpt.  Decreases the
relevant liability total by `delta`; fails with `InternalInconsistency`
when `delta` exceeds the currently recorded total. -/
def release (r : BalanceRecord) (side : Side) (delta : Int) :
    Except LiabilityError BalanceRecord :=
  match side with
  | .selling =>
    if r.sellingLiabilities < delta then
      .error .InternalInconsistency
    else
      .ok { r with sellingLiabilities := r.sellingLiabilities - delta }
  | .buying =>
    if r.buyingLiabilities < delta then
      .error .InternalInconsistency
    else
      .ok { r with buyingLiabilities := r.buyingLiabilities - delta }

/-- Modelled from the spec: the dispatch of
`OfferFrame::acquireOrReleaseLiabilities(bool isAcquire, ...)`
(OfferFrame.h lines 126-131), whose body is not in the excerpt. -/
def acquireOrReleaseLiabilities (isAcquire : Bool) (r : BalanceRecord)
    (side : Side) (delta : Int) : Except LiabilityError BalanceRecord :=
  if isAcquire then acquire r side delta else release r side delta

/-- A sequence of acquire/release calls against one balance record,
stopping at the first failure (spec section 8, conservation and invariant
preservation over random call sequences). -/
def runLiabilityOps (r : BalanceRecord) :
    List (Bool × Side × Int) → Except LiabilityError BalanceRecord
  | [] => .ok r
  | (isAcquire, side, delta) :: rest =>
    match acquireOrReleaseLiabilities isAcquire r side delta with
    | .ok r1 => runLiabilityOps r1 rest
    | .error e => .error e

/-- Static well-formedness of a balance record's non-liability fields:
nonnegative reserve and balance, balance within the limit side's range,
all representable in signed 64 bits. -/
def recordBounds (r : BalanceRecord) : Prop :=
  0 ≤ r.reserve ∧ 0 ≤ r.balance ∧ r.balance ≤ INT64_MAX ∧ r.limit ≤ INT64_MAX

/-- The balance-record invariant (spec section 3): both liability totals
nonnegative, `balance - sellingLiabilities >= reserve` and
`balance + buyingLiabilities <= limit`. -/
def liabilityInvariant (r : BalanceRecord) : Prop :=
  0 ≤ r.sellingLiabilities ∧ 0 ≤ r.buyingLiabilities ∧
    r.reserve ≤ r.balance - r.sellingLiabilities ∧
    r.balance + r.buyingLiabilities ≤ r.limit

instance (r : BalanceRecord) : Decidable (recordBounds r) := by
  unfold recordBounds; infer_instance

instance (r : BalanceRecord) : Decidable (liabilityInvariant r) := by
  unfold liabilityInvariant; infer_instance

/-! ## Offer-level acquire/release orchestration (spec sections 4.2, 4.5;
`OfferFrame::acquireLiabilities` / `releaseLiabilities` bodies are not in
the excerpt) -/

/-- Modelled from the spec: `OfferFrame::acquireLiabilities`
(OfferFrame.h lines 119-123), body not in the excerpt.  Creating an offer
of amount A at price P acquires `sellingLiabilities += A` on the
selling-side balance record and `buyingLiabilities += ceil(A * P)` on the
buying-side record; any failure aborts with no change. -/
def acquireOfferLiabilities (sellingSide buyingSide : BalanceRecord)
    (oe : OfferEntry) :
    Except LiabilityError (BalanceRecord × BalanceRecord) :=
  match getBuyingLiabilities oe with
  | .error e => .error e
  | .ok buyingAmount =>
    match acquire sellingSide .selling (getSellingLiabilities oe) with
    | .error e => .error e
    | .ok sellingSide1 =>
      match acquire buyingSide .buying buyingAmount with
      | .error e => .error e
      | .ok buyingSide1 => .ok (sellingSide1, buyingSide1)

/-- Modelled from the spec: `OfferFrame::releaseLiabilities`
(OfferFrame.h lines 114-118), body not in the excerpt.  Deleting/reducing
an offer releases the corresponding amounts from both sides. -/
def releaseOfferLiabilities (sellingSide buyingSide : BalanceRecord)
    (oe : OfferEntry) :
    Except LiabilityError (BalanceRecord × BalanceRecord) :=
  match getBuyingLiabilities oe with
  | .error e => .error e
  | .ok buyingAmount =>
    match release sellingSide .selling (getSellingLiabilities oe) with
    | .error e => .error e
    | .ok sellingSide1 =>
      match release buyingSide .buying buyingAmount with
      | .error e => .error e
      | .ok buyingSide1 => .ok (sellingSide1, buyingSide1)

/-- The ledger state an offer mutation touches: the ID pool from the
ledger header, the offer book, and the two balance records of the seller. -/
structure OfferLedgerState where
  idPool : Nat
  book : List OfferEntry
  sellingSide : BalanceRecord
  buyingSide : BalanceRecord
deriving DecidableEq

/-- Modelled from the spec: creation of a new offer (spec sections 4.5
and 6; the manage-offer operation frame is outside the excerpt, observed
through `applyCreateOfferHelper` in TxTests.cpp lines 593-652).  When the
requested identifier is 0 ("assign new") the offer receives the next value
from the ID pool, `idPool + 1`, and the pool is bumped; the liability
acquisition must succeed, else the whole mutation fails. -/
def createOffer (st : OfferLedgerState) (oe : OfferEntry) :
    Except LiabilityError OfferLedgerState :=
  let assignedID := if oe.offerID = 0 then st.idPool + 1 else oe.offerID
  let idPool1 := if oe.offerID = 0 then st.idPool + 1 else st.idPool
  match acquireOfferLiabilities st.sellingSide st.buyingSide oe with
  | .error e => .error e
  | .ok (sellingSide1, buyingSide1) =>
    .ok { idPool := idPool1
          book := { oe with offerID := assignedID } :: st.book
          sellingSide := sellingSide1
          buyingSide := buyingSide1 }

/-- The enclosing mutation as a total step: an accepted creation commits
the new state, a rejected one leaves the state untouched (spec section
4.5: `Rejected` persists nothing). -/
def createOfferStep (st : OfferLedgerState) (oe : OfferEntry) :
    OfferLedgerState :=
  match createOffer st oe with
  | .ok st1 => st1
  | .error _ => st

/-! ## Best-offer selector (spec section 4.4;
`OfferFrame::loadBestOffers`, OfferFrame.h lines 99-102, is declared but
not defined in the excerpt) -/

/-- Price-time priority as a Boolean comparison: strictly better (lower)
price by exact cross-multiplication first, ties broken by ascending
`offerID` (spec section 4.4). -/
def offerPriorityLE (a b : OfferEntry) : Bool :=
  decide (a.price.n * b.price.d < b.price.n * a.price.d) ||
    (decide (a.price.n * b.price.d = b.price.n * a.price.d) &&
      decide (a.offerID ≤ b.offerID))

/-- Insert an offer into a list sorted by `offerPriorityLE`. -/
def insertOffer (a : OfferEntry) : List OfferEntry → List OfferEntry
  | [] => [a]
  | b :: rest =>
    if offerPriorityLE a b then a :: b :: rest else b :: insertOffer a rest

/-- Sort a list of offers by `offerPriorityLE` (the model of the
price-ordered select statement behind `loadBestOffers`). -/
def sortOffers : List OfferEntry → List OfferEntry
  | [] => []
  | a :: rest => insertOffer a (sortOffers rest)

/-- Modelled from the spec: `bestOffers(maxCount, offset, wantsToSell,
wantsToBuy)` (spec section 4.4; `OfferFrame::loadBestOffers` is declared
in OfferFrame.h lines 99-102 with no body in the excerpt).  Returns the
offers selling `wantsToSell` for `wantsToBuy`, ordered best price first
with ties broken by ascending offer identifier, paginated by
`offset`/`numOffers`.  The function is pure: it only reads the book. -/
def bestOffers (numOffers offset : Nat) (wantsToSell wantsToBuy : Asset)
    (book : List OfferEntry) : List OfferEntry :=
  ((sortOffers (book.filter
      (fun o => o.selling = wantsToSell ∧ o.buying = wantsToBuy))).drop
    offset).take numOffers

/-! ## Concrete instances used to exercise the theorems -/

/-- The issued asset used in the examples. -/
def usd : Asset := Asset.alphaNum4 "USD" 2

/-- A selling-side balance record with spendable balance 990. -/
def sellingRecordEx : BalanceRecord := ⟨1000, 10, INT64_MAX, 0, 0⟩

/-- A buying-side balance record (trust line) with limit 1000. -/
def buyingRecordEx : BalanceRecord := ⟨0, 0, 1000, 0, 0⟩

/-- An offer selling 100 units at price 1/3. -/
def offerThird : OfferEntry := ⟨1, 5, Asset.native, usd, 100, ⟨1, 3⟩, 0⟩

/-- An offer with amount `INT64_MAX` and price 2/1. -/
def overflowOffer : OfferEntry := ⟨1, 9, Asset.native, usd, INT64_MAX, ⟨2, 1⟩, 0⟩

/-- A ledger state whose selling-side record has no spendable balance. -/
def poorLedgerState : OfferLedgerState :=
  ⟨7, [], ⟨0, 0, INT64_MAX, 0, 0⟩, ⟨0, 0, 1000, 0, 0⟩⟩

/-- A ledger state with ID pool at 41 and enough balance to accept
`offerNewID`. -/
def richLedgerState : OfferLedgerState :=
  ⟨41, [], ⟨1000, 10, INT64_MAX, 0, 0⟩, ⟨0, 0, 1000, 0, 0⟩⟩

/-- An offer created with identifier 0, meaning "assign new". -/
def offerNewID : OfferEntry := ⟨1, 0, Asset.native, usd, 100, ⟨1, 3⟩, 0⟩

/-- A balance record for the acquire/release sequence example. -/
def baseRecordEx : BalanceRecord := ⟨1000, 10, 2000, 0, 0⟩

/-- A sequence of acquire/release calls, all accepted from
`baseRecordEx`. -/
def liabilityOpsEx : List (Bool × Side × Int) :=
  [(true, .selling, 100), (true, .buying, 34), (false, .selling, 50)]

/-- Offer id 10 at price 3/2 on the native/USD pair. -/
def offerId10 : OfferEntry := ⟨1, 10, Asset.native, usd, 50, ⟨3, 2⟩, 0⟩

/-- Offer id 5 at price 3/2 on the native/USD pair. -/
def offerId5 : OfferEntry := ⟨2, 5, Asset.native, usd, 50, ⟨3, 2⟩, 0⟩

/-- Offer id 7 at price 1/1 on the native/USD pair. -/
def offerId7 : OfferEntry := ⟨3, 7, Asset.native, usd, 50, ⟨1, 1⟩, 0⟩

/-- An offer on the opposite pair, filtered out by `bestOffers`. -/
def offerOtherPair : OfferEntry := ⟨4, 2, usd, Asset.native, 50, ⟨1, 2⟩, 0⟩

/-- The example offer book for the price-ordering test. -/
def exampleBook : List OfferEntry :=
  [offerId10, offerOtherPair, offerId5, offerId7]

/-- Example set-options arguments, left operand. -/
def argsX : SetOptionsArguments :=
  ⟨some 3, some 1, none, none, some ⟨9, 1⟩, none, none, some 4, some "x.example"⟩

/-- Example set-options arguments, right operand. -/
def argsY : SetOptionsArguments :=
  ⟨some 5, none, some 2, none, none, some 8, none, none, none⟩

/-- `sellingRecordEx` after acquiring the liabilities of `offerThird`. -/
def sellingAfterEx : BalanceRecord := ⟨1000, 10, INT64_MAX, 100, 0⟩

/-- `buyingRecordEx` after acquiring the liabilities of `offerThird`. -/
def buyingAfterEx : BalanceRecord := ⟨0, 0, 1000, 0, 34⟩

/-- `richLedgerState` after accepting `offerNewID`. -/
def richAfterEx : OfferLedgerState :=
  ⟨42, [⟨1, 42, Asset.native, usd, 100, ⟨1, 3⟩, 0⟩],
    ⟨1000, 10, INT64_MAX, 100, 0⟩, ⟨0, 0, 1000, 0, 34⟩⟩

/-! ## Helper lemmas -/

theorem chooseOpt_some {α : Type} (x : Option α) (v : α) :
    chooseOpt x (some v) = some v := rfl

theorem chooseOpt_none {α : Type} (x : Option α) : chooseOpt x none = x := rfl

theorem chooseOpt_none_left {α : Type} (y : Option α) :
    chooseOpt none y = y := by
  cases y <;> rfl

theorem chooseOpt_assoc {α : Type} (a b c : Option α) :
    chooseOpt (chooseOpt a b) c = chooseOpt a (chooseOpt b c) := by
  cases c <;> cases b <;> rfl

/-! ## Claim theorems: merge operator on SetOptionsArguments -/

/-- C8: the merge operator on SetOptionsArguments (TxTests.cpp 737-751) is
right-biased field by field — each field of `x | y` is `y`'s value when `y`
has it set and `x`'s value otherwise — and consequently `|` is associative
and the default-constructed all-unset arguments value is a left and right
identity. -/
theorem mergeSetOptionsArguments_right_biased_assoc_identity :
    (∀ (x y : SetOptionsArguments) (vi : Int) (vs : Signer) (vn : Nat)
        (vh : String),
      (y.masterWeight = some vi →
        (mergeSetOptionsArguments x y).masterWeight = some vi) ∧
      (y.masterWeight = none →
        (mergeSetOptionsArguments x y).masterWeight = x.masterWeight) ∧
      (y.lowThreshold = some vi →
        (mergeSetOptionsArguments x y).lowThreshold = some vi) ∧
      (y.lowThreshold = none →
        (mergeSetOptionsArguments x y).lowThreshold = x.lowThreshold) ∧
      (y.medThreshold = some vi →
        (mergeSetOptionsArguments x y).medThreshold = some vi) ∧
      (y.medThreshold = none →
        (mergeSetOptionsArguments x y).medThreshold = x.medThreshold) ∧
      (y.highThreshold = some vi →
        (mergeSetOptionsArguments x y).highThreshold = some vi) ∧
      (y.highThreshold = none →
        (mergeSetOptionsArguments x y).highThreshold = x.highThreshold) ∧
      (y.signer = some vs → (mergeSetOptionsArguments x y).signer = some vs) ∧
      (y.signer = none →
        (mergeSetOptionsArguments x y).signer = x.signer) ∧
      (y.setFlags = some vn →
        (mergeSetOptionsArguments x y).setFlags = some vn) ∧
      (y.setFlags = none →
        (mergeSetOptionsArguments x y).setFlags = x.setFlags) ∧
      (y.clearFlags = some vn →
        (mergeSetOptionsArguments x y).clearFlags = some vn) ∧
      (y.clearFlags = none →
        (mergeSetOptionsArguments x y).clearFlags = x.clearFlags) ∧
      (y.inflationDest = some vn →
        (mergeSetOptionsArguments x y).inflationDest = some vn) ∧
      (y.inflationDest = none →
        (mergeSetOptionsArguments x y).inflationDest = x.inflationDest) ∧
      (y.homeDomain = some vh →
        (mergeSetOptionsArguments x y).homeDomain = some vh) ∧
      (y.homeDomain = none →
        (mergeSetOptionsArguments x y).homeDomain = x.homeDomain)) ∧
    (∀ x y z : SetOptionsArguments,
      mergeSetOptionsArguments (mergeSetOptionsArguments x y) z =
        mergeSetOptionsArguments x (mergeSetOptionsArguments y z)) ∧
    (∀ x : SetOptionsArguments,
      mergeSetOptionsArguments emptySetOptionsArguments x = x ∧
        mergeSetOptionsArguments x emptySetOptionsArguments = x) := by
  refine ⟨?_, ?_, ?_⟩
  · intro x y vi vs vn vh
    refine ⟨?_, ?_, ?_, ?_, ?_, ?_, ?_, ?_, ?_, ?_, ?_, ?_, ?_, ?_, ?_, ?_,
      ?_, ?_⟩ <;>
      (intro h; simp [mergeSetOptionsArguments, h, chooseOpt_some,
        chooseOpt_none])
  · intro x y z
    ext1 <;> simp [mergeSetOptionsArguments, chooseOpt_assoc]
  · intro x
    constructor <;>
      (ext1 <;> simp [mergeSetOptionsArguments, emptySetOptionsArguments,
        chooseOpt_none_left, chooseOpt_none])

/-- Witness for C8: concrete right-bias on an engaged and a disengaged
field. -/
theorem mergeSetOptionsArguments_right_biased_witness :
    (argsY.masterWeight = some 5 ∧
      (mergeSetOptionsArguments argsX argsY).masterWeight = some 5) ∧
    (argsY.lowThreshold = none ∧
      (mergeSetOptionsArguments argsX argsY).lowThreshold =
        argsX.lowThreshold) :=
  ⟨⟨rfl, ((mergeSetOptionsArguments_right_biased_assoc_identity.1 argsX argsY
      5 ⟨9, 1⟩ 0 "").1) rfl⟩,
   ⟨rfl, ((mergeSetOptionsArguments_right_biased_assoc_identity.1 argsX argsY
      5 ⟨9, 1⟩ 0 "").2.2.2.1) rfl⟩⟩

/-! ## Claim theorems: transaction fee masking -/

/-- C9: `transactionFromOperations` stores the fee as the product
(number of operations) * (per-transaction fee) reduced modulo 2^32 by the
`& UINT32_MAX` mask, so whenever the true total exceeds the uint32 range
the stored fee silently wraps (is strictly below the true total) instead
of being rejected. -/
theorem transactionFromOperations_fee_wraps :
    ∀ (source : AccountID) (seq : Nat) (ops : List Operation) (txFee : Nat),
      (transactionFromOperations source seq ops txFee).fee =
        (ops.length * txFee) % 2 ^ 32 ∧
      (UINT32_MAX < ops.length * txFee →
        (transactionFromOperations source seq ops txFee).fee <
          ops.length * txFee) := by
  intro source seq ops txFee
  have hmask : (transactionFromOperations source seq ops txFee).fee =
      (ops.length * txFee) % 2 ^ 32 := by
    show ((ops.length * txFee) % 2 ^ 64) &&& UINT32_MAX =
      (ops.length * txFee) % 2 ^ 32
    have h1 : UINT32_MAX = 2 ^ 32 - 1 := rfl
    rw [h1, Nat.and_pow_two_sub_one_eq_mod,
      Nat.mod_mod_of_dvd _ (by norm_num)]
  refine ⟨hmask, fun hgt => ?_⟩
  rw [hmask]
  have h1 : UINT32_MAX = 2 ^ 32 - 1 := rfl
  rw [h1] at hgt
  omega

/-- Witness for C9: one operation with a per-transaction fee of 2^32 wraps
the stored fee to 0. -/
theorem transactionFromOperations_fee_wraps_witness :
    UINT32_MAX < [Operation.other].length * 4294967296 ∧
      (transactionFromOperations 0 1 [Operation.other] 4294967296).fee <
        [Operation.other].length * 4294967296 :=
  ⟨by norm_num [UINT32_MAX],
    (transactionFromOperations_fee_wraps 0 1 [Operation.other] 4294967296).2
      (by norm_num [UINT32_MAX])⟩

/-! ## Claim theorems: getAccount seed stretching -/

/-- C10: `getAccount` stretches its name to a 32-byte seed by appending
dots; it is deterministic (equal names yield equal keys) but not
injective: any name shorter than 32 characters collides with the same name
with one dot appended. -/
theorem getAccount_deterministic_not_injective :
    ∀ n m : String,
      (n = m → getAccount n = getAccount m) ∧
      (n.length < 32 → getAccount n = getAccount (n ++ ".")) := by
  intro n m
  refine ⟨fun h => by rw [h], fun h => ?_⟩
  show SecretKey.fromSeed (stretchSeed n) =
    SecretKey.fromSeed (stretchSeed (n ++ "."))
  have hstep : stretchSeed n = stretchSeed (n ++ ".") := by
    conv_lhs => rw [stretchSeed]
    rw [dif_pos h]
  rw [hstep]

/-- Witness for C10: the names "alice" and "alice." yield the same secret
key. -/
theorem getAccount_deterministic_not_injective_witness :
    ("alice" : String).length < 32 ∧
      getAccount "alice" = getAccount ("alice" ++ ".") :=
  ⟨by decide, (getAccount_deterministic_not_injective "alice" "alice").2
    (by decide)⟩

/-! ## Claim theorems: buying-liability overflow guard -/

/-- C4: the buying-side liability computation detects overflow: every
accepted result is within the signed 64-bit range, and the offer with
amount `INT64_MAX` and price 2/1 is rejected with `ArithmeticOverflow`
rather than wrapped or truncated. -/
theorem getBuyingLiabilities_overflow_guard :
    (∀ (oe : OfferEntry) (v : Int),
      getBuyingLiabilities oe = .ok v → v ≤ INT64_MAX) ∧
    getBuyingLiabilities overflowOffer = .error .ArithmeticOverflow := by
  constructor
  · intro oe v h
    unfold getBuyingLiabilities at h
    by_cases hc : INT64_MAX <
        (oe.amount * oe.price.n + oe.price.d - 1).ediv oe.price.d
    · simp [hc] at h
    · simp [hc] at h
      omega
  · decide

/-- Witness for C4: an in-range offer is accepted with a value within the
signed 64-bit range. -/
theorem getBuyingLiabilities_overflow_guard_witness :
    getBuyingLiabilities offerThird = .ok 34 ∧ (34 : Int) ≤ INT64_MAX :=
  ⟨by decide, getBuyingLiabilities_overflow_guard.1 offerThird 34 (by decide)⟩

/-! ## Helper lemmas about the acquire/release orchestration -/

theorem acquireOfferLiabilities_ok_iff
    (ss bs ss1 bs1 : BalanceRecord) (oe : OfferEntry) :
    acquireOfferLiabilities ss bs oe = .ok (ss1, bs1) ↔
      ∃ c, getBuyingLiabilities oe = .ok c ∧
        acquire ss .selling (getSellingLiabilities oe) = .ok ss1 ∧
        acquire bs .buying c = .ok bs1 := by
  unfold acquireOfferLiabilities
  cases hc : getBuyingLiabilities oe with
  | error e => simp [hc]
  | ok c =>
    cases hs : acquire ss .selling (getSellingLiabilities oe) with
    | error e => simp [hc, hs]
    | ok ss2 =>
      cases hb : acquire bs .buying c with
      | error e => simp [hc, hs, hb]
      | ok bs2 => simp [hc, hs, hb, and_comm]

theorem acquire_selling_ok_iff (r r1 : BalanceRecord) (delta : Int) :
    acquire r .selling delta = .ok r1 ↔
      r.reserve ≤ r.balance - (r.sellingLiabilities + delta) ∧
        r1 = { r with sellingLiabilities := r.sellingLiabilities + delta } := by
  unfold acquire
  by_cases hg : r.reserve ≤ r.balance - (r.sellingLiabilities + delta) <;>
    simp [hg, eq_comm]

theorem acquire_buying_ok_iff (r r1 : BalanceRecord) (delta : Int) :
    acquire r .buying delta = .ok r1 ↔
      r.balance + (r.buyingLiabilities + delta) ≤ r.limit ∧
        r1 = { r with buyingLiabilities := r.buyingLiabilities + delta } := by
  unfold acquire
  by_cases hg : r.balance + (r.buyingLiabilities + delta) ≤ r.limit <;>
    simp [hg, eq_comm]

theorem getBuyingLiabilities_ok_val (oe : OfferEntry) (c : Int) :
    getBuyingLiabilities oe = .ok c →
      c = Int.ediv (oe.amount * oe.price.n + oe.price.d - 1) oe.price.d := by
  intro h
  unfold getBuyingLiabilities at h
  by_cases hc : INT64_MAX <
      Int.ediv (oe.amount * oe.price.n + oe.price.d - 1) oe.price.d
  · simp [hc] at h
  · simp [hc] at h
    omega

/-- The buying-side liability value is exactly the ceiling of
`amount * price`: it is the unique integer `c` with
`amount * n <= c * d` and `(c - 1) * d < amount * n`. -/
theorem ediv_ceil_characterization (a n d c : Int) (hd : 0 < d)
    (hc : c = Int.ediv (a * n + d - 1) d) :
    a * n ≤ c * d ∧ (c - 1) * d < a * n := by
  have hkey : d * Int.ediv (a * n + d - 1) d +
      Int.emod (a * n + d - 1) d = a * n + d - 1 :=
    Int.ediv_add_emod (a * n + d - 1) d
  have hm1 : 0 ≤ Int.emod (a * n + d - 1) d :=
    Int.emod_nonneg (a * n + d - 1) (ne_of_gt hd)
  have hm2 : Int.emod (a * n + d - 1) d < d :=
    Int.emod_lt_of_pos (a * n + d - 1) hd
  subst hc
  constructor <;> nlinarith [hkey, hm1, hm2]

/-! ## Claim theorems: offer creation liability amounts (C3) -/

/-- C3: an accepted acquisition for an offer of amount A at price n/d adds
exactly A to the selling liabilities (no rounding) and adds the ceiling of
A*n/d to the buying liabilities — the added value c satisfies
`A*n <= c*d` and `(c-1)*d < A*n`, so 100 units at price 1/3 add 34, not
33. -/
theorem offer_creation_liability_amounts :
    ∀ (ss bs ss1 bs1 : BalanceRecord) (oe : OfferEntry),
      0 ≤ oe.amount → 0 < oe.price.n → 0 < oe.price.d →
      acquireOfferLiabilities ss bs oe = .ok (ss1, bs1) →
      ss1.sellingLiabilities = ss.sellingLiabilities + oe.amount ∧
      oe.amount * oe.price.n ≤
        (bs1.buyingLiabilities - bs.buyingLiabilities) * oe.price.d ∧
      (bs1.buyingLiabilities - bs.buyingLiabilities - 1) * oe.price.d <
        oe.amount * oe.price.n := by
  intro ss bs ss1 bs1 oe _ha _hn hd h
  rw [acquireOfferLiabilities_ok_iff] at h
  obtain ⟨c, hc, hs, hb⟩ := h
  rw [acquire_selling_ok_iff] at hs
  rw [acquire_buying_ok_iff] at hb
  have hcv := getBuyingLiabilities_ok_val oe c hc
  have hsel : ss1.sellingLiabilities = ss.sellingLiabilities + oe.amount := by
    rw [hs.2]; rfl
  have hbuy : bs1.buyingLiabilities - bs.buyingLiabilities = c := by
    rw [hb.2]
    simp
  have hchar := ediv_ceil_characterization oe.amount oe.price.n oe.price.d c
    hd hcv
  refine ⟨by simpa [getSellingLiabilities] using hsel, ?_, ?_⟩
  · rw [hbuy]; exact hchar.1
  · rw [hbuy]; exact hchar.2

/-- Witness for C3: selling 100 at price 1/3 adds 100 to the selling
liabilities and 34 (the ceiling of 100/3) to the buying liabilities. -/
theorem offer_creation_liability_amounts_witness :
    ((0 : Int) ≤ offerThird.amount ∧ 0 < offerThird.price.n ∧
      0 < offerThird.price.d ∧
      acquireOfferLiabilities sellingRecordEx buyingRecordEx offerThird =
        .ok (sellingAfterEx, buyingAfterEx)) ∧
    (sellingAfterEx.sellingLiabilities =
        sellingRecordEx.sellingLiabilities + offerThird.amount ∧
      offerThird.amount * offerThird.price.n ≤
        (buyingAfterEx.buyingLiabilities - buyingRecordEx.buyingLiabilities) *
          offerThird.price.d ∧
      (buyingAfterEx.buyingLiabilities - buyingRecordEx.buyingLiabilities -
          1) * offerThird.price.d < offerThird.amount * offerThird.price.n) :=
  ⟨⟨by decide, by decide, by decide, by decide⟩,
    offer_creation_liability_amounts sellingRecordEx buyingRecordEx
      sellingAfterEx buyingAfterEx offerThird (by decide) (by decide)
      (by decide) (by decide)⟩

/-! ## Claim theorems: acquire/release round trip (C5) -/

/-- C5: for every offer and every starting pair of balance records with
nonnegative liability totals, acquiring the offer's liabilities (adding
the offer) and then releasing them (deleting it) restores both records,
hence both liability totals, exactly. -/
theorem acquire_release_round_trip :
    ∀ (ss bs ss1 bs1 : BalanceRecord) (oe : OfferEntry),
      0 ≤ ss.sellingLiabilities → 0 ≤ bs.buyingLiabilities →
      acquireOfferLiabilities ss bs oe = .ok (ss1, bs1) →
      releaseOfferLiabilities ss1 bs1 oe = .ok (ss, bs) := by
  intro ss bs ss1 bs1 oe h0s h0b h
  rw [acquireOfferLiabilities_ok_iff] at h
  obtain ⟨c, hc, hs, hb⟩ := h
  rw [acquire_selling_ok_iff] at hs
  rw [acquire_buying_ok_iff] at hb
  obtain ⟨hgs, hss1⟩ := hs
  obtain ⟨hgb, hbs1⟩ := hb
  subst hss1
  subst hbs1
  unfold releaseOfferLiabilities
  rw [hc]
  have hns : ¬ (ss.sellingLiabilities + getSellingLiabilities oe <
      getSellingLiabilities oe) := by omega
  have hnb : ¬ (bs.buyingLiabilities + c < c) := by omega
  simp [release, hns, hnb]

/-- Witness for C5: adding `offerThird` and deleting it again restores the
starting records exactly. -/
theorem acquire_release_round_trip_witness :
    ((0 : Int) ≤ sellingRecordEx.sellingLiabilities ∧
      (0 : Int) ≤ buyingRecordEx.buyingLiabilities ∧
      acquireOfferLiabilities sellingRecordEx buyingRecordEx offerThird =
        .ok (sellingAfterEx, buyingAfterEx)) ∧
    releaseOfferLiabilities sellingAfterEx buyingAfterEx offerThird =
      .ok (sellingRecordEx, buyingRecordEx) :=
  ⟨⟨by decide, by decide, by decide⟩,
    acquire_release_round_trip sellingRecordEx buyingRecordEx sellingAfterEx
      buyingAfterEx offerThird (by decide) (by decide) (by decide)⟩

/-! ## Claim theorems: rejection is a no-op (C2) -/

/-- C2: when the liability acquisition for an offer fails, the enclosing
creation fails with the same error and the committed ledger state — ID
pool, offer book and both balance records with their liability totals —
is exactly the state before the attempt: nothing is added, deleted or
modified. -/
theorem rejected_offer_mutation_no_op :
    ∀ (st : OfferLedgerState) (oe : OfferEntry) (e : LiabilityError),
      acquireOfferLiabilities st.sellingSide st.buyingSide oe = .error e →
      createOffer st oe = .error e ∧ createOfferStep st oe = st := by
  intro st oe e h
  have h1 : createOffer st oe = .error e := by
    unfold createOffer
    rw [h]
  refine ⟨h1, ?_⟩
  unfold createOfferStep
  rw [h1]

/-- Witness for C2: an offer whose selling liability exceeds the spendable
balance is rejected and changes nothing. -/
theorem rejected_offer_mutation_no_op_witness :
    acquireOfferLiabilities poorLedgerState.sellingSide
        poorLedgerState.buyingSide offerThird =
        .error .InsufficientBalance ∧
      (createOffer poorLedgerState offerThird =
          .error .InsufficientBalance ∧
        createOfferStep poorLedgerState offerThird = poorLedgerState) :=
  ⟨by decide,
    rejected_offer_mutation_no_op poorLedgerState offerThird
      .InsufficientBalance (by decide)⟩

/-! ## Claim theorems: ID pool assignment (C7) -/

/-- C7: a new offer created with identifier 0 receives the next identifier
from the ID pool — the created entry's offerID is the header's idPool
before the operation plus one, and the pool is bumped to that value —
while a failed creation leaves the whole state, the idPool included,
unchanged. -/
theorem createOffer_assigns_next_id :
    ∀ (st st1 : OfferLedgerState) (oe : OfferEntry),
      (oe.offerID = 0 → createOffer st oe = .ok st1 →
        st1.idPool = st.idPool + 1 ∧
        st1.book = { oe with offerID := st.idPool + 1 } :: st.book) ∧
      (∀ e, createOffer st oe = .error e →
        createOfferStep st oe = st ∧
        (createOfferStep st oe).idPool = st.idPool) := by
  intro st st1 oe
  constructor
  · intro hid h
    unfold createOffer at h
    cases hacq : acquireOfferLiabilities st.sellingSide st.buyingSide oe with
    | error e =>
      rw [hacq] at h
      exact absurd h (by simp)
    | ok p =>
      obtain ⟨a, b⟩ := p
      rw [hacq] at h
      simp only [hid, if_pos, Except.ok.injEq] at h
      refine ⟨?_, ?_⟩ <;> rw [← h]
  · intro e h
    have h1 : createOfferStep st oe = st := by
      unfold createOfferStep
      rw [h]
    exact ⟨h1, by rw [h1]⟩

/-- Witness for C7: creating `offerNewID` (identifier 0) from ID pool 41
assigns identifier 42 and bumps the pool to 42. -/
theorem createOffer_assigns_next_id_witness :
    (offerNewID.offerID = 0 ∧
      createOffer richLedgerState offerNewID = .ok richAfterEx) ∧
    (richAfterEx.idPool = richLedgerState.idPool + 1 ∧
      richAfterEx.book =
        { offerNewID with offerID := richLedgerState.idPool + 1 } ::
          richLedgerState.book) :=
  ⟨⟨by decide, by decide⟩,
    (createOffer_assigns_next_id richLedgerState richAfterEx offerNewID).1
      (by decide) (by decide)⟩

/-! ## Claim theorems: invariant preservation (C1) -/

theorem acquire_preserves_invariant (r r1 : BalanceRecord) (side : Side)
    (delta : Int) (hb : recordBounds r) (hi : liabilityInvariant r)
    (hd : 0 ≤ delta) (h : acquire r side delta = .ok r1) :
    recordBounds r1 ∧ liabilityInvariant r1 := by
  obtain ⟨hb1, hb2, hb3, hb4⟩ := hb
  obtain ⟨hi1, hi2, hi3, hi4⟩ := hi
  cases side
  · rw [acquire_selling_ok_iff] at h
    obtain ⟨hg, h1⟩ := h
    subst h1
    exact ⟨⟨hb1, hb2, hb3, hb4⟩, by dsimp only; omega, hi2, hg, hi4⟩
  · rw [acquire_buying_ok_iff] at h
    obtain ⟨hg, h1⟩ := h
    subst h1
    exact ⟨⟨hb1, hb2, hb3, hb4⟩, hi1, by dsimp only; omega, hi3, hg⟩

theorem release_selling_ok_iff (r r1 : BalanceRecord) (delta : Int) :
    release r .selling delta = .ok r1 ↔
      ¬ (r.sellingLiabilities < delta) ∧
        r1 = { r with
          sellingLiabilities := r.sellingLiabilities - delta } := by
  unfold release
  by_cases hg : r.sellingLiabilities < delta <;> simp [hg, eq_comm]

theorem release_buying_ok_iff (r r1 : BalanceRecord) (delta : Int) :
    release r .buying delta = .ok r1 ↔
      ¬ (r.buyingLiabilities < delta) ∧
        r1 = { r with
          buyingLiabilities := r.buyingLiabilities - delta } := by
  unfold release
  by_cases hg : r.buyingLiabilities < delta <;> simp [hg, eq_comm]

theorem release_preserves_invariant (r r1 : BalanceRecord) (side : Side)
    (delta : Int) (hb : recordBounds r) (hi : liabilityInvariant r)
    (hd : 0 ≤ delta) (h : release r side delta = .ok r1) :
    recordBounds r1 ∧ liabilityInvariant r1 := by
  obtain ⟨hb1, hb2, hb3, hb4⟩ := hb
  obtain ⟨hi1, hi2, hi3, hi4⟩ := hi
  cases side
  · rw [release_selling_ok_iff] at h
    obtain ⟨hg, h1⟩ := h
    subst h1
    exact ⟨⟨hb1, hb2, hb3, hb4⟩, by dsimp only; omega, hi2,
      by dsimp only; omega, hi4⟩
  · rw [release_buying_ok_iff] at h
    obtain ⟨hg, h1⟩ := h
    subst h1
    exact ⟨⟨hb1, hb2, hb3, hb4⟩, hi1, by dsimp only; omega, hi3,
      by dsimp only; omega⟩

theorem runLiabilityOps_preserves_invariant :
    ∀ (ops : List (Bool × Side × Int)) (r r1 : BalanceRecord),
      recordBounds r → liabilityInvariant r →
      (∀ op ∈ ops, 0 ≤ op.2.2) →
      runLiabilityOps r ops = .ok r1 →
      recordBounds r1 ∧ liabilityInvariant r1 := by
  intro ops
  induction ops with
  | nil =>
    intro r r1 hb hi _ h
    unfold runLiabilityOps at h
    cases h
    exact ⟨hb, hi⟩
  | cons op rest ih =>
    intro r r1 hb hi hpos h
    obtain ⟨isAcquire, side, delta⟩ := op
    unfold runLiabilityOps at h
    cases hstep : acquireOrReleaseLiabilities isAcquire r side delta with
    | error e => rw [hstep] at h; exact absurd h (by simp)
    | ok r2 =>
      rw [hstep] at h
      have hdelta : 0 ≤ delta := hpos _ (List.mem_cons_self _ _)
      have hrest : ∀ op ∈ rest, 0 ≤ op.2.2 :=
        fun o ho => hpos o (List.mem_cons_of_mem _ ho)
      have h2 : recordBounds r2 ∧ liabilityInvariant r2 := by
        unfold acquireOrReleaseLiabilities at hstep
        cases isAcquire with
        | true =>
          simp only [if_pos] at hstep
          exact acquire_preserves_invariant r r2 side delta hb hi hdelta hstep
        | false =>
          simp only [Bool.false_eq_true, if_neg] at hstep
          exact release_preserves_invariant r r2 side delta hb hi hdelta hstep
      exact ih r2 r1 h2.1 h2.2 hrest h

/-- C1: an accepted acquisition re-establishes the balance-record
invariant immediately (`reserve <= balance - sellingLiabilities` and
`balance + buyingLiabilities <= limit`), and after any sequence of
successful acquire/release calls with nonnegative deltas, starting from a
well-formed record, both liability totals are nonnegative and within the
signed 64-bit range. -/
theorem liability_invariant_preserved :
    (∀ (r r1 : BalanceRecord) (side : Side) (delta : Int),
      liabilityInvariant r → 0 ≤ delta → acquire r side delta = .ok r1 →
      r1.reserve ≤ r1.balance - r1.sellingLiabilities ∧
        r1.balance + r1.buyingLiabilities ≤ r1.limit) ∧
    (∀ (r r1 : BalanceRecord) (ops : List (Bool × Side × Int)),
      recordBounds r → liabilityInvariant r →
      (∀ op ∈ ops, 0 ≤ op.2.2) → runLiabilityOps r ops = .ok r1 →
      0 ≤ r1.sellingLiabilities ∧ r1.sellingLiabilities ≤ INT64_MAX ∧
        0 ≤ r1.buyingLiabilities ∧ r1.buyingLiabilities ≤ INT64_MAX) := by
  constructor
  · intro r r1 side delta hi _hd h
    obtain ⟨_, _, hi3, hi4⟩ := hi
    cases side
    · rw [acquire_selling_ok_iff] at h
      obtain ⟨hg, h1⟩ := h
      subst h1
      exact ⟨hg, hi4⟩
    · rw [acquire_buying_ok_iff] at h
      obtain ⟨hg, h1⟩ := h
      subst h1
      exact ⟨hi3, hg⟩
  · intro r r1 ops hb hi hpos h
    obtain ⟨⟨hb1, hb2, hb3, hb4⟩, hi1, hi2, hi3, hi4⟩ :=
      runLiabilityOps_preserves_invariant ops r r1 hb hi hpos h
    refine ⟨hi1, by omega, hi2, by omega⟩

/-- Witness for C1: a concrete accepted sequence of two acquisitions and a
release keeps both totals nonnegative and in range. -/
theorem liability_invariant_preserved_witness :
    (recordBounds baseRecordEx ∧ liabilityInvariant baseRecordEx ∧
      (∀ op ∈ liabilityOpsEx, 0 ≤ op.2.2) ∧
      runLiabilityOps baseRecordEx liabilityOpsEx =
        .ok ⟨1000, 10, 2000, 50, 34⟩) ∧
    (0 ≤ (⟨1000, 10, 2000, 50, 34⟩ : BalanceRecord).sellingLiabilities ∧
      (⟨1000, 10, 2000, 50, 34⟩ : BalanceRecord).sellingLiabilities ≤
        INT64_MAX ∧
      0 ≤ (⟨1000, 10, 2000, 50, 34⟩ : BalanceRecord).buyingLiabilities ∧
      (⟨1000, 10, 2000, 50, 34⟩ : BalanceRecord).buyingLiabilities ≤
        INT64_MAX) :=
  ⟨⟨by decide, by decide, by decide, by decide⟩,
    liability_invariant_preserved.2 baseRecordEx ⟨1000, 10, 2000, 50, 34⟩
      liabilityOpsEx (by decide) (by decide) (by decide) (by decide)⟩

/-! ## Ordering lemmas for the best-offer selector -/

theorem offerPriorityLE_iff (a b : OfferEntry) :
    offerPriorityLE a b = true ↔
      a.price.n * b.price.d < b.price.n * a.price.d ∨
        (a.price.n * b.price.d = b.price.n * a.price.d ∧
          a.offerID ≤ b.offerID) := by
  simp [offerPriorityLE]

theorem offerPriorityLE_total (a b : OfferEntry) :
    offerPriorityLE a b = true ∨ offerPriorityLE b a = true := by
  rw [offerPriorityLE_iff, offerPriorityLE_iff]
  rcases lt_trichotomy (a.price.n * b.price.d) (b.price.n * a.price.d) with
    h | h | h
  · exact Or.inl (Or.inl h)
  · rcases Nat.le_total a.offerID b.offerID with hid | hid
    · exact Or.inl (Or.inr ⟨h, hid⟩)
    · exact Or.inr (Or.inr ⟨h.symm, hid⟩)
  · exact Or.inr (Or.inl h)

theorem offerPriorityLE_trans (a b c : OfferEntry) (hda : 0 < a.price.d)
    (hdb : 0 < b.price.d) (hdc : 0 < c.price.d)
    (hab : offerPriorityLE a b = true) (hbc : offerPriorityLE b c = true) :
    offerPriorityLE a c = true := by
  rw [offerPriorityLE_iff] at hab hbc ⊢
  rcases hab with h1 | ⟨h1, hid1⟩ <;> rcases hbc with h2 | ⟨h2, hid2⟩
  · have t1 : a.price.n * b.price.d * c.price.d <
        b.price.n * a.price.d * c.price.d := mul_lt_mul_of_pos_right h1 hdc
    have t2 : b.price.n * c.price.d * a.price.d <
        c.price.n * b.price.d * a.price.d := mul_lt_mul_of_pos_right h2 hda
    have t3 : a.price.n * c.price.d * b.price.d <
        c.price.n * a.price.d * b.price.d := by nlinarith [t1, t2]
    exact Or.inl (lt_of_mul_lt_mul_right t3 hdb.le)
  · have t1 : a.price.n * b.price.d * c.price.d <
        b.price.n * a.price.d * c.price.d := mul_lt_mul_of_pos_right h1 hdc
    have t2 : b.price.n * c.price.d * a.price.d =
        c.price.n * b.price.d * a.price.d := by rw [h2]
    have t3 : a.price.n * c.price.d * b.price.d <
        c.price.n * a.price.d * b.price.d := by nlinarith [t1, t2]
    exact Or.inl (lt_of_mul_lt_mul_right t3 hdb.le)
  · have t1 : a.price.n * b.price.d * c.price.d =
        b.price.n * a.price.d * c.price.d := by rw [h1]
    have t2 : b.price.n * c.price.d * a.price.d <
        c.price.n * b.price.d * a.price.d := mul_lt_mul_of_pos_right h2 hda
    have t3 : a.price.n * c.price.d * b.price.d <
        c.price.n * a.price.d * b.price.d := by nlinarith [t1, t2]
    exact Or.inl (lt_of_mul_lt_mul_right t3 hdb.le)
  · have t3 : a.price.n * c.price.d * b.price.d =
        c.price.n * a.price.d * b.price.d := by
      linear_combination c.price.d * h1 + a.price.d * h2
    exact Or.inr ⟨mul_right_cancel₀ (ne_of_gt hdb) t3,
      Nat.le_trans hid1 hid2⟩

theorem mem_insertOffer (a x : OfferEntry) :
    ∀ l : List OfferEntry, x ∈ insertOffer a l ↔ x = a ∨ x ∈ l := by
  intro l
  induction l with
  | nil => simp [insertOffer]
  | cons b t ih =>
    unfold insertOffer
    by_cases h : offerPriorityLE a b = true
    · simp [h]
    · rw [if_neg h]
      simp only [List.mem_cons, ih]
      tauto

theorem mem_sortOffers (x : OfferEntry) :
    ∀ l : List OfferEntry, x ∈ sortOffers l ↔ x ∈ l := by
  intro l
  induction l with
  | nil => simp [sortOffers]
  | cons a t ih =>
    unfold sortOffers
    rw [mem_insertOffer]
    simp [ih]

theorem pairwise_insertOffer (a : OfferEntry) :
    ∀ l : List OfferEntry, 0 < a.price.d → (∀ o ∈ l, 0 < o.price.d) →
      l.Pairwise (fun x y => offerPriorityLE x y = true) →
      (insertOffer a l).Pairwise (fun x y => offerPriorityLE x y = true) := by
  intro l
  induction l with
  | nil =>
    intro _ _ _
    simp [insertOffer]
  | cons b t ih =>
    intro hda hl hp
    rw [List.pairwise_cons] at hp
    obtain ⟨hb, ht⟩ := hp
    have hdb : 0 < b.price.d := hl b (List.mem_cons_self _ _)
    have hlt : ∀ o ∈ t, 0 < o.price.d :=
      fun o ho => hl o (List.mem_cons_of_mem _ ho)
    unfold insertOffer
    by_cases h : offerPriorityLE a b = true
    · simp only [h, if_pos]
      rw [List.pairwise_cons]
      refine ⟨?_, ?_⟩
      · intro x hx
        rcases List.mem_cons.mp hx with rfl | hxt
        · exact h
        · exact offerPriorityLE_trans a b x hda hdb (hlt x hxt) h (hb x hxt)
      · rw [List.pairwise_cons]
        exact ⟨hb, ht⟩
    · rw [if_neg h]
      rw [List.pairwise_cons]
      refine ⟨?_, ih hda hlt ht⟩
      intro x hx
      rcases (mem_insertOffer a x t).mp hx with hxa | hxt
      · subst hxa
        rcases offerPriorityLE_total x b with htot | htot
        · exact absurd htot h
        · exact htot
      · exact hb x hxt

theorem pairwise_sortOffers :
    ∀ l : List OfferEntry, (∀ o ∈ l, 0 < o.price.d) →
      (sortOffers l).Pairwise (fun x y => offerPriorityLE x y = true) := by
  intro l
  induction l with
  | nil =>
    intro _
    simp [sortOffers]
  | cons a t ih =>
    intro hl
    unfold sortOffers
    apply pairwise_insertOffer
    · exact hl a (List.mem_cons_self _ _)
    · intro o ho
      exact hl o (List.mem_cons_of_mem _ ((mem_sortOffers o t).mp ho))
    · exact ih (fun o ho => hl o (List.mem_cons_of_mem _ ho))

/-! ## Claim theorems: best-offer ordering (C6) -/

/-- C6: `bestOffers` returns the offers of the requested pair ordered best
price (by exact cross-multiplication) first with ties broken by ascending
offerID — for prices {3/2, 3/2, 1/1} with ids {10, 5, 7} it returns
[id 7, id 5, id 10] — and in general every returned list is sorted under
the price-then-id priority order. -/
theorem bestOffers_price_time_priority :
    bestOffers 10 0 Asset.native usd exampleBook =
      [offerId7, offerId5, offerId10] ∧
    (∀ (numOffers offset : Nat) (ws wb : Asset) (book : List OfferEntry),
      (∀ o ∈ book, 0 < o.price.d) →
      (bestOffers numOffers offset ws wb book).Pairwise
        (fun x y => offerPriorityLE x y = true)) := by
  constructor
  · decide
  · intro numOffers offset ws wb book hpos
    unfold bestOffers
    apply List.Pairwise.sublist
      ((List.take_sublist _ _).trans (List.drop_sublist _ _))
    apply pairwise_sortOffers
    intro o ho
    exact hpos o (List.mem_of_mem_filter ho)

/-- Witness for C6: the example book has positive denominators and its
best-offer listing is sorted under the priority order. -/
theorem bestOffers_price_time_priority_witness :
    (∀ o ∈ exampleBook, 0 < o.price.d) ∧
      (bestOffers 3 0 Asset.native usd exampleBook).Pairwise
        (fun x y => offerPriorityLE x y = true) :=
  ⟨by decide,
    bestOffers_price_time_priority.2 3 0 Asset.native usd exampleBook
      (by decide)⟩

end Fonero
